import Mathlib

/-!
Verification of the awsspectre concurrent scanning and metrics-aggregation
engine against its specification.

The Go sources are shallowly embedded:
* `internal/aws/metrics.go` (the metrics batcher): `batchIDs`, `fetchMetric`,
  `FetchAverage`, `FetchSum`.  CloudWatch sample values (`float64` in Go) are
  modelled as exact rationals `ℚ`; the remote `GetMetricData` client is an
  explicit function from the query list to a response or an error; the Go type
  `map[string]float64` is modelled as an association list with
  insert-or-replace semantics; a slice-index panic is modelled as the
  `.panic` error of an `Except`.
* `internal/aws/scanner.go` (the orchestrators): `scanRegion`, `ScanAll`,
  `NewMultiRegionScanner`.  The concurrent `errgroup` fan-out is modelled as
  a fold over the per-unit outcomes in schedule order (the merge is guarded
  by a mutex in Go, so one interleaving of whole-contribution appends is
  faithful); the outcome of the pool machinery (`g.Wait()`) is an explicit
  `Option String` input.  The Go `(*ScanResult, error)` returns are modelled
  as `Option ScanResult × Option String` pairs.
* `internal/aws/types.go`: `ShouldExclude` over `ExcludeConfig`, with Go
  maps modelled as association lists (`nil` maps as `Option`/`[]`).
-/

/-! ### Metrics batcher (internal/aws/metrics.go) -/

/-- Go constant `maxMetricDataQueries = 500`. -/
def maxMetricDataQueries : Nat := 500

/-- One CloudWatch metric-data sub-query, as built by `fetchMetric`: its
synthetic id (`"m<index>"`) and the dimension value (the resource id).  The
fields that are constant across every sub-query of one call (namespace,
metric name, dimension name, period, statistic, time window) are elided. -/
structure MetricDataQuery where
  id : String
  resourceID : String
deriving DecidableEq, Repr

/-- One entry of a `GetMetricData` response: the echoed sub-query id (a
nullable pointer in Go, hence `Option`) and the list of samples. -/
structure MetricDataResult where
  id : Option String
  values : List ℚ
deriving DecidableEq, Repr

/-- Errors a metrics fetch can end in: a remote-call failure (Go returns
`nil, fmt.Errorf(...)`) or a runtime panic from an out-of-range slice
index. -/
inductive FetchErr where
  | remote (msg : String)
  | panic
deriving DecidableEq, Repr

/-- The remote CloudWatch client: one `GetMetricData` call, from the list of
sub-queries to either a response list or an error. -/
def GoClient : Type := List MetricDataQuery → Except String (List MetricDataResult)

/-- Fuel-indexed worker for `batchIDs`: repeatedly slices off the next
`k + 1` elements, mirroring the Go loop `for i := 0; i < len(ids); i +=
batchSize`.  The fuel is the list length, enough for every step. -/
def chunkFuel (k : Nat) : Nat → List String → List (List String)
  | 0, _ => []
  | _, [] => []
  | fuel + 1, x :: xs => ((x :: xs).take (k + 1)) :: chunkFuel k fuel (xs.drop k)

/-- `batchIDs` from metrics.go: splits `ids` into contiguous batches of at
most `batchSize`; a non-positive `batchSize` falls back to
`maxMetricDataQueries`. -/
def batchIDs (ids : List String) (batchSize : Int) : List (List String) :=
  let bs : Int := if batchSize ≤ 0 then (maxMetricDataQueries : Int) else batchSize
  chunkFuel (bs.toNat - 1) ids.length ids

/-- The query list built for one batch: `for i, id := range batch` produces
`MetricDataQuery{Id: "m<i>", Dimensions: [..Value: id]}`. -/
def mkQueriesFrom (i : Nat) : List String → List MetricDataQuery
  | [] => []
  | id :: rest => ⟨"m" ++ toString i, id⟩ :: mkQueriesFrom (i + 1) rest

/-- Queries of one batch, indices starting at 0. -/
def mkQueries (batch : List String) : List MetricDataQuery :=
  mkQueriesFrom 0 batch

/-- Decimal digits of a query id, read greedily. -/
def digitsToNat (cs : List Char) : Nat :=
  cs.foldl (fun a c => a * 10 + (c.toNat - 48)) 0

/-- The Go call `fmt.Sscanf(id, "m%d", &idx)`: a literal `m` followed by an
optionally signed decimal integer (`%d` accepts a sign, so `"m-1"` parses
to `-1`); trailing characters are ignored by `Sscanf`.  `none` models a
non-nil scan error. -/
def sscanfMd (s : String) : Option Int :=
  match s.data with
  | 'm' :: rest =>
    let signed : Bool × List Char :=
      match rest with
      | '-' :: r => (true, r)
      | '+' :: r => (false, r)
      | r => (false, r)
    let digs := signed.2.takeWhile Char.isDigit
    if digs.isEmpty then none
    else if signed.1 then some (-(digitsToNat digs : Int))
    else some ((digitsToNat digs : Int))
  | _ => none

/-- Assignment `m[k] = v` on a Go `map[string]float64`, modelled on an
association list: replace the binding if the key is present, else append. -/
def mapInsert (m : List (String × ℚ)) (k : String) (v : ℚ) : List (String × ℚ) :=
  if m.any (fun p => p.1 == k) then
    m.map (fun p => if p.1 == k then (k, v) else p)
  else m ++ [(k, v)]

/-- The aggregate computed for one result: `total` is the running sum of the
samples; division by the sample count happens exactly when the statistic is
`"Average"` and there is at least one sample. -/
def aggregate (stat : String) (values : List ℚ) : ℚ :=
  let total := values.foldl (fun a v => a + v) 0
  if stat = "Average" ∧ 0 < values.length then total / (values.length : ℚ)
  else total

/-- Processing of one `MetricDataResult` inside the batch loop of
`fetchMetric`: skip a nil id, a failed `Sscanf`, an index `≥ len(batch)`,
or an empty sample list; otherwise write the aggregate under
`batch[idx]` — which panics when the parsed index is negative, since the
Go guard only checks the upper bound. -/
def processOneResult (stat : String) (batch : List String) (r : MetricDataResult)
    (acc : List (String × ℚ)) : Except FetchErr (List (String × ℚ)) :=
  match r.id with
  | none => .ok acc
  | some rid =>
    match sscanfMd rid with
    | none => .ok acc
    | some idx =>
      if (batch.length : Int) ≤ idx then .ok acc
      else if r.values.isEmpty then .ok acc
      else if h : 0 ≤ idx ∧ idx.toNat < batch.length then
        .ok (mapInsert acc (batch.get ⟨idx.toNat, h.2⟩) (aggregate stat r.values))
      else .error .panic

/-- The `for _, result := range out.MetricDataResults` loop. -/
def processResults (stat : String) (batch : List String) (rs : List MetricDataResult)
    (acc : List (String × ℚ)) : Except FetchErr (List (String × ℚ)) :=
  match rs with
  | [] => .ok acc
  | r :: rest =>
    match processOneResult stat batch r acc with
    | .error e => .error e
    | .ok acc2 => processResults stat batch rest acc2

/-- Output of a metrics fetch: the trace of remote `GetMetricData` calls
actually issued (each the query list of one batch) and the final outcome —
the result map, or the error with which the whole call aborted. -/
structure FetchOut where
  calls : List (List MetricDataQuery)
  result : Except FetchErr (List (String × ℚ))
deriving Repr

/-- The batch loop of `fetchMetric`: one remote call per batch; a failed
call aborts the whole fetch with a `.remote` error and the accumulated map
is discarded (Go returns `nil, err`). -/
def fetchBatches (client : GoClient) (stat : String) :
    List (List String) → List (List MetricDataQuery) → List (String × ℚ) → FetchOut
  | [], calls, acc => ⟨calls, .ok acc⟩
  | b :: rest, calls, acc =>
    let qs := mkQueries b
    match client qs with
    | .error e => ⟨calls ++ [qs], .error (.remote e)⟩
    | .ok rs =>
      match processResults stat b rs acc with
      | .error e => ⟨calls ++ [qs], .error e⟩
      | .ok acc2 => fetchBatches client stat rest (calls ++ [qs]) acc2

/-- `fetchMetric` from metrics.go: empty input short-circuits to
`nil, nil` with no remote call; otherwise the ids are batched by
`batchIDs(ids, maxMetricDataQueries)` and each batch fetched in turn. -/
def fetchMetric (client : GoClient) (ids : List String) (stat : String) : FetchOut :=
  if ids.length = 0 then ⟨[], .ok []⟩
  else fetchBatches client stat (batchIDs ids (maxMetricDataQueries : Int)) [] []

/-- `FetchAverage`: `fetchMetric` with statistic `"Average"`. -/
def FetchAverage (client : GoClient) (ids : List String) : FetchOut :=
  fetchMetric client ids "Average"

/-- `FetchSum`: `fetchMetric` with statistic `"Sum"`. -/
def FetchSum (client : GoClient) (ids : List String) : FetchOut :=
  fetchMetric client ids "Sum"

/-! ### Findings and scan results (internal/aws/types.go) -/

/-- `Finding` from types.go.  `EstimatedMonthlyWaste` (`float64`) is
modelled as `ℚ`; the open `map[string]any` metadata bag is modelled as a
string-keyed association list of printed values. -/
structure Finding where
  id : String
  severity : String
  resourceType : String
  resourceID : String
  resourceName : String
  region : String
  message : String
  estimatedMonthlyWaste : ℚ
  metadata : List (String × String)
deriving DecidableEq, Repr

/-- `ScanResult` from types.go.  The Go `int` counters are modelled as
`Int`. -/
structure ScanResult where
  findings : List Finding := []
  errors : List String := []
  resourcesScanned : Int := 0
  regionsScanned : Int := 0
deriving DecidableEq, Repr

/-! ### Orchestrators (internal/aws/scanner.go) -/

/-- One scanner run inside `scanRegion`: the `Type()` tag and what the
`Scan` call returned — a `ScanResult` or a non-nil error. -/
structure ScannerRun where
  type : String
  outcome : Except String ScanResult
deriving Repr

/-- The body of one `g.Go` closure in `scanRegion`, applied to the shared
accumulator under the mutex: a failed scanner appends the single entry
`"<region>/<type>: <cause>"` to `Errors`; a successful scanner appends its
`Findings` and adds its `ResourcesScanned` (its own `Errors` list is not
touched by this code path). -/
def mergeScanner (region : String) (acc : ScanResult) (s : ScannerRun) : ScanResult :=
  match s.outcome with
  | .error e =>
    { acc with errors := acc.errors ++ [region ++ "/" ++ s.type ++ ": " ++ e] }
  | .ok sr =>
    { acc with
      findings := acc.findings ++ sr.findings
      resourcesScanned := acc.resourcesScanned + sr.resourcesScanned }

/-- The accumulator `scanRegion` assembles for one region: the
contribution of every scanner merged in schedule order, starting from the zero
`ScanResult`. -/
def scanRegion (region : String) (runs : List ScannerRun) : ScanResult :=
  runs.foldl (mergeScanner region) {}

/-- The Go return value `(*ScanResult, error)` of `scanRegion`.  `waitErr`
is the outcome of `g.Wait()` on the errgroup of the region (the worker closures
all return nil, so in the source it can only be non-nil through the pool
machinery itself); when non-nil the code returns `nil, err`, discarding
the accumulator. -/
def scanRegionGo (region : String) (runs : List ScannerRun) (waitErr : Option String) :
    Option ScanResult × Option String :=
  match waitErr with
  | some e => (none, some e)
  | none => (some (scanRegion region runs), none)

/-- One region run inside `ScanAll`: the region name and what
`scanRegion` returned for it. -/
structure RegionRun where
  region : String
  outcome : Except String ScanResult
deriving Repr

/-- The body of one `g.Go` closure in `ScanAll`, applied to the combined
accumulator under the mutex: a failed region appends the single entry
`"<region>: <cause>"`; a successful region appends its `Findings` and its
`Errors` and adds its `ResourcesScanned`. -/
def mergeRegion (acc : ScanResult) (r : RegionRun) : ScanResult :=
  match r.outcome with
  | .error e =>
    { acc with errors := acc.errors ++ [r.region ++ ": " ++ e] }
  | .ok res =>
    { acc with
      findings := acc.findings ++ res.findings
      errors := acc.errors ++ res.errors
      resourcesScanned := acc.resourcesScanned + res.resourcesScanned }

/-- `ScanAll` from scanner.go: merges the outcome of every region, then —
when
`g.Wait()` fails (`waitErr` non-nil) — returns `nil, err`, discarding the
combined accumulator; otherwise sets `RegionsScanned` to the number of
configured regions (regions attempted, not regions succeeded) and returns
the combined result with a nil error. -/
def ScanAll (runs : List RegionRun) (waitErr : Option String) :
    Option ScanResult × Option String :=
  let combined := runs.foldl mergeRegion {}
  match waitErr with
  | some e => (none, some e)
  | none => (some { combined with regionsScanned := (runs.length : Int) }, none)

/-- `MultiRegionScanner`, restricted to the fields the claims touch. -/
structure MultiRegionScanner where
  regions : List String
  concurrency : Int
deriving DecidableEq, Repr

/-- `NewMultiRegionScanner`: a non-positive concurrency cap silently falls
back to 4; the constructor cannot fail. -/
def NewMultiRegionScanner (regions : List String) (concurrency : Int) : MultiRegionScanner :=
  if concurrency ≤ 0 then { regions := regions, concurrency := 4 }
  else { regions := regions, concurrency := concurrency }

/-! ### Exclusion rules (internal/aws/types.go) -/

/-- Lookup `m[k]` on a Go `map[string]bool`: the zero value `false` when
the key is absent. -/
def goLookupBool (m : List (String × Bool)) (k : String) : Bool :=
  match m.find? (fun p => p.1 == k) with
  | some p => p.2
  | none => false

/-- Lookup `v, exists := m[k]` on a Go `map[string]string`. -/
def goLookup (m : List (String × String)) (k : String) : Option String :=
  (m.find? (fun p => p.1 == k)).map (fun p => p.2)

/-- `ExcludeConfig` from types.go: the `ResourceIDs` set (a
`map[string]bool` in Go) and the tag predicates (`map[string]string`,
empty value meaning "any value of this key"). -/
structure ExcludeConfig where
  resourceIDs : List (String × Bool)
  tags : List (String × String)
deriving DecidableEq, Repr

/-- The body of the `for k, v := range e.Tags` loop in `ShouldExclude`: a
predicate `(k, v)` matches the tag set when the key exists and `v` is empty
(any value) or equals the value of the tag. -/
def tagMatches (ts : List (String × String)) (kv : String × String) : Bool :=
  match goLookup ts kv.1 with
  | none => false
  | some tagVal => kv.2 == "" || tagVal == kv.2

/-- `ShouldExclude` from types.go.  `tags = none` models a nil Go map (tag
matching skipped); the loop over `e.Tags` returns true on the first
matching predicate, which is order-independent, so it is modelled by
`List.any`. -/
def ShouldExclude (e : ExcludeConfig) (resourceID : String)
    (tags : Option (List (String × String))) : Bool :=
  if goLookupBool e.resourceIDs resourceID then true
  else
    match tags with
    | none => false
    | some ts =>
      if e.tags.length = 0 then false
      else e.tags.any (tagMatches ts)

/-! ### Contribution functions

Closed-form characterizations of what one unit of work adds to the shared
accumulator, used to state the orchestrator theorems. -/

/-- Findings a scanner run contributes to the region accumulator. -/
def scannerFindContrib (s : ScannerRun) : List Finding :=
  match s.outcome with
  | .ok sr => sr.findings
  | .error _ => []

/-- Error strings a scanner run contributes to the region accumulator. -/
def scannerErrContrib (region : String) (s : ScannerRun) : List String :=
  match s.outcome with
  | .ok _ => []
  | .error e => [region ++ "/" ++ s.type ++ ": " ++ e]

/-- Resource count a scanner run contributes to the region accumulator. -/
def scannerResContrib (s : ScannerRun) : Int :=
  match s.outcome with
  | .ok sr => sr.resourcesScanned
  | .error _ => 0

/-- Findings a region run contributes to the combined accumulator. -/
def regionFindContrib (r : RegionRun) : List Finding :=
  match r.outcome with
  | .ok res => res.findings
  | .error _ => []

/-- Error strings a region run contributes to the combined accumulator. -/
def regionErrContrib (r : RegionRun) : List String :=
  match r.outcome with
  | .ok res => res.errors
  | .error e => [r.region ++ ": " ++ e]

/-- Resource count a region run contributes to the combined accumulator. -/
def regionResContrib (r : RegionRun) : Int :=
  match r.outcome with
  | .ok res => res.resourcesScanned
  | .error _ => 0

/-- A scanner run that returned a result without error. -/
def mkOkScanner (p : String × ScanResult) : ScannerRun :=
  { type := p.1, outcome := .ok p.2 }

/-- A region run that returned a result without error. -/
def mkOkRegion (p : String × ScanResult) : RegionRun :=
  { region := p.1, outcome := .ok p.2 }

/-! ### Batching lemmas -/

lemma chunkFuel_length (k : Nat) :
    ∀ (fuel : Nat) (l : List String), l.length ≤ fuel →
      (chunkFuel k fuel l).length = (l.length + k) / (k + 1) := by
  intro fuel
  induction fuel with
  | zero =>
    intro l hl
    have : l = [] := List.eq_nil_of_length_eq_zero (Nat.le_zero.mp hl)
    subst this
    simp [chunkFuel, Nat.div_eq_of_lt (Nat.lt_succ_self k)]
  | succ fuel ih =>
    intro l hl
    cases l with
    | nil => simp [chunkFuel, Nat.div_eq_of_lt (Nat.lt_succ_self k)]
    | cons x xs =>
      have hxs : (xs.drop k).length ≤ fuel := by
        simp only [List.length_drop]
        simp only [List.length_cons] at hl
        omega
      have := ih (xs.drop k) hxs
      simp only [chunkFuel, List.length_cons, this, List.length_drop]
      have h1 : xs.length + 1 + k = xs.length + (k + 1) := by omega
      rw [h1, Nat.add_div_right _ (Nat.succ_pos k)]
      by_cases hk : k ≤ xs.length
      · have h2 : xs.length - k + k = xs.length := by omega
        rw [h2]
      · have h2 : xs.length - k = 0 := by omega
        rw [h2, Nat.zero_add,
          Nat.div_eq_of_lt (Nat.lt_succ_self k),
          Nat.div_eq_of_lt (by omega : xs.length < k + 1)]

lemma chunkFuel_flatten (k : Nat) :
    ∀ (fuel : Nat) (l : List String), l.length ≤ fuel →
      (chunkFuel k fuel l).flatten = l := by
  intro fuel
  induction fuel with
  | zero =>
    intro l hl
    have : l = [] := List.eq_nil_of_length_eq_zero (Nat.le_zero.mp hl)
    subst this
    simp [chunkFuel]
  | succ fuel ih =>
    intro l hl
    cases l with
    | nil => simp [chunkFuel]
    | cons x xs =>
      have hxs : (xs.drop k).length ≤ fuel := by
        simp only [List.length_drop]
        simp only [List.length_cons] at hl
        omega
      simp [chunkFuel, ih (xs.drop k) hxs, List.take_succ_cons,
        List.take_append_drop]

lemma chunkFuel_mem_length (k : Nat) :
    ∀ (fuel : Nat) (l : List String), ∀ b ∈ chunkFuel k fuel l,
      b.length ≤ k + 1 := by
  intro fuel
  induction fuel with
  | zero => intro l b hb; simp [chunkFuel] at hb
  | succ fuel ih =>
    intro l b hb
    cases l with
    | nil => simp [chunkFuel] at hb
    | cons x xs =>
      simp only [chunkFuel, List.mem_cons] at hb
      rcases hb with hb | hb
      · subst hb
        simp [List.length_take]
      · exact ih (xs.drop k) b hb

lemma batchIDs_def (ids : List String) :
    batchIDs ids (maxMetricDataQueries : Int) =
      chunkFuel (maxMetricDataQueries - 1) ids.length ids := by
  simp [batchIDs, maxMetricDataQueries]

lemma batchIDs_length (ids : List String) :
    (batchIDs ids (maxMetricDataQueries : Int)).length =
      (ids.length + (maxMetricDataQueries - 1)) / maxMetricDataQueries := by
  rw [batchIDs_def, chunkFuel_length _ _ _ (Nat.le_refl _)]
  norm_num [maxMetricDataQueries]

lemma batchIDs_flatten (ids : List String) :
    (batchIDs ids (maxMetricDataQueries : Int)).flatten = ids := by
  rw [batchIDs_def, chunkFuel_flatten _ _ _ (Nat.le_refl _)]

lemma batchIDs_mem_length (ids : List String) :
    ∀ b ∈ batchIDs ids (maxMetricDataQueries : Int),
      b.length ≤ maxMetricDataQueries := by
  rw [batchIDs_def]
  intro b hb
  exact chunkFuel_mem_length _ _ _ b hb

lemma mkQueriesFrom_resourceIDs (b : List String) :
    ∀ i, (mkQueriesFrom i b).map (fun q => q.resourceID) = b := by
  induction b with
  | nil => intro i; simp [mkQueriesFrom]
  | cons x xs ih => intro i; simp [mkQueriesFrom, ih]

lemma mkQueries_resourceIDs (b : List String) :
    (mkQueries b).map (fun q => q.resourceID) = b :=
  mkQueriesFrom_resourceIDs b 0

lemma mkQueriesFrom_length (b : List String) :
    ∀ i, (mkQueriesFrom i b).length = b.length := by
  induction b with
  | nil => intro i; simp [mkQueriesFrom]
  | cons x xs ih => intro i; simp [mkQueriesFrom, ih]

lemma mkQueries_length (b : List String) : (mkQueries b).length = b.length :=
  mkQueriesFrom_length b 0

/-! ### Result-map lemmas -/

lemma mapInsert_map_fst (m : List (String × ℚ)) (k : String) (v : ℚ) :
    (m.map (fun p => if p.1 == k then (k, v) else p)).map Prod.fst =
      m.map Prod.fst := by
  rw [List.map_map]
  apply List.map_congr_left
  intro p _
  by_cases hc : p.1 == k
  · simp only [Function.comp, hc, if_true]
    exact (beq_iff_eq.mp hc).symm
  · simp [Function.comp, hc]

lemma mapInsert_keys (m : List (String × ℚ)) (k kp : String) (v : ℚ)
    (h : kp ∈ (mapInsert m k v).map Prod.fst) :
    kp ∈ m.map Prod.fst ∨ kp = k := by
  unfold mapInsert at h
  by_cases hm : m.any (fun p => p.1 == k)
  · rw [if_pos hm, mapInsert_map_fst m k v] at h
    exact Or.inl h
  · rw [if_neg hm, List.map_append] at h
    rcases List.mem_append.mp h with h | h
    · exact Or.inl h
    · simp only [List.map_cons, List.map_nil, List.mem_singleton] at h
      exact Or.inr h

lemma processOneResult_keys (stat : String) (batch : List String)
    (r : MetricDataResult) (acc acc2 : List (String × ℚ))
    (h : processOneResult stat batch r acc = .ok acc2) :
    ∀ kp ∈ acc2.map Prod.fst, kp ∈ acc.map Prod.fst ∨ kp ∈ batch := by
  unfold processOneResult at h
  split at h
  · simp only [Except.ok.injEq] at h
    subst h
    exact fun kp hkp => Or.inl hkp
  · split at h
    · simp only [Except.ok.injEq] at h
      subst h
      exact fun kp hkp => Or.inl hkp
    · split at h
      · simp only [Except.ok.injEq] at h
        subst h
        exact fun kp hkp => Or.inl hkp
      · split at h
        · simp only [Except.ok.injEq] at h
          subst h
          exact fun kp hkp => Or.inl hkp
        · split at h
          · simp only [Except.ok.injEq] at h
            subst h
            intro kp hkp
            rcases mapInsert_keys _ _ _ _ hkp with hk | hk
            · exact Or.inl hk
            · subst hk
              exact Or.inr (List.get_mem batch _ _)
          · exact absurd h (by simp)

lemma processResults_keys (stat : String) (batch : List String) :
    ∀ (rs : List MetricDataResult) (acc acc2 : List (String × ℚ)),
      processResults stat batch rs acc = .ok acc2 →
      ∀ kp ∈ acc2.map Prod.fst, kp ∈ acc.map Prod.fst ∨ kp ∈ batch := by
  intro rs
  induction rs with
  | nil =>
    intro acc acc2 h
    simp only [processResults, Except.ok.injEq] at h
    subst h
    exact fun kp hkp => Or.inl hkp
  | cons r rest ih =>
    intro acc acc2 h
    unfold processResults at h
    split at h
    · exact absurd h (by simp)
    · rename_i accMid hmid
      intro kp hkp
      rcases ih accMid acc2 h kp hkp with hk | hk
      · exact processOneResult_keys stat batch r acc accMid hmid kp hk
      · exact Or.inr hk

lemma fetchBatches_calls_ok (client : GoClient) (stat : String) :
    ∀ (batches : List (List String)) (calls0 : List (List MetricDataQuery))
      (acc m : List (String × ℚ)),
      (fetchBatches client stat batches calls0 acc).result = .ok m →
      (fetchBatches client stat batches calls0 acc).calls =
        calls0 ++ batches.map mkQueries := by
  intro batches
  induction batches with
  | nil => intro calls0 acc m _; simp [fetchBatches]
  | cons b rest ih =>
    intro calls0 acc m h
    cases hc : client (mkQueries b) with
    | error e =>
      simp only [fetchBatches, hc] at h
      exact absurd h (by simp)
    | ok rs =>
      cases hp : processResults stat b rs acc with
      | error e =>
        simp only [fetchBatches, hc, hp] at h
        exact absurd h (by simp)
      | ok acc2 =>
        simp only [fetchBatches, hc, hp] at h ⊢
        rw [ih (calls0 ++ [mkQueries b]) acc2 m h]
        simp

lemma fetchBatches_client_ok (client : GoClient) (stat : String) :
    ∀ (batches : List (List String)) (calls0 : List (List MetricDataQuery))
      (acc m : List (String × ℚ)),
      (fetchBatches client stat batches calls0 acc).result = .ok m →
      ∀ qs ∈ (fetchBatches client stat batches calls0 acc).calls,
        qs ∈ calls0 ∨ ∃ rs, client qs = .ok rs := by
  intro batches
  induction batches with
  | nil =>
    intro calls0 acc m _ qs hqs
    simp only [fetchBatches] at hqs
    exact Or.inl hqs
  | cons b rest ih =>
    intro calls0 acc m h qs hqs
    cases hc : client (mkQueries b) with
    | error e =>
      simp only [fetchBatches, hc] at h
      exact absurd h (by simp)
    | ok rs =>
      cases hp : processResults stat b rs acc with
      | error e =>
        simp only [fetchBatches, hc, hp] at h
        exact absurd h (by simp)
      | ok acc2 =>
        simp only [fetchBatches, hc, hp] at h hqs
        rcases ih (calls0 ++ [mkQueries b]) acc2 m h qs hqs with hq | hq
        · rcases List.mem_append.mp hq with hq | hq
          · exact Or.inl hq
          · simp only [List.mem_singleton] at hq
            subst hq
            exact Or.inr ⟨rs, hc⟩
        · exact Or.inr hq

lemma fetchBatches_keys (client : GoClient) (stat : String) :
    ∀ (batches : List (List String)) (calls0 : List (List MetricDataQuery))
      (acc m : List (String × ℚ)),
      (fetchBatches client stat batches calls0 acc).result = .ok m →
      ∀ kp ∈ m.map Prod.fst, kp ∈ acc.map Prod.fst ∨ kp ∈ batches.flatten := by
  intro batches
  induction batches with
  | nil =>
    intro calls0 acc m h kp hkp
    simp only [fetchBatches, Except.ok.injEq] at h
    subst h
    exact Or.inl hkp
  | cons b rest ih =>
    intro calls0 acc m h kp hkp
    cases hc : client (mkQueries b) with
    | error e =>
      simp only [fetchBatches, hc] at h
      exact absurd h (by simp)
    | ok rs =>
      cases hp : processResults stat b rs acc with
      | error e =>
        simp only [fetchBatches, hc, hp] at h
        exact absurd h (by simp)
      | ok acc2 =>
        simp only [fetchBatches, hc, hp] at h
        rcases ih (calls0 ++ [mkQueries b]) acc2 m h kp hkp with hk | hk
        · rcases processResults_keys stat b rs acc acc2 hp kp hk with hk2 | hk2
          · exact Or.inl hk2
          · exact Or.inr (by simp [hk2])
        · exact Or.inr (by simp [hk])

/-! ### Aggregation lemmas -/

lemma foldl_add_eq_sum : ∀ (l : List ℚ) (a : ℚ),
    l.foldl (fun x v => x + v) a = a + l.sum := by
  intro l
  induction l with
  | nil => intro a; simp
  | cons x xs ih => intro a; simp [ih, add_assoc]

lemma aggregate_average (vs : List ℚ) (h : vs ≠ []) :
    aggregate "Average" vs = vs.sum / (vs.length : ℚ) := by
  unfold aggregate
  rw [if_pos ⟨rfl, List.length_pos.mpr h⟩, foldl_add_eq_sum, zero_add]

lemma aggregate_sum_stat (vs : List ℚ) : aggregate "Sum" vs = vs.sum := by
  unfold aggregate
  rw [if_neg (fun hcon => absurd hcon.1 (by decide)), foldl_add_eq_sum, zero_add]

/-! ### Orchestrator fold lemmas -/

lemma foldl_mergeScanner (region : String) :
    ∀ (runs : List ScannerRun) (acc : ScanResult),
      runs.foldl (mergeScanner region) acc =
        { findings := acc.findings ++ (runs.map scannerFindContrib).flatten
          errors := acc.errors ++ (runs.map (scannerErrContrib region)).flatten
          resourcesScanned := acc.resourcesScanned + (runs.map scannerResContrib).sum
          regionsScanned := acc.regionsScanned } := by
  intro runs
  induction runs with
  | nil => intro acc; simp
  | cons s rest ih =>
    intro acc
    rw [List.foldl_cons, ih]
    cases hs : s.outcome with
    | error e =>
      simp [mergeScanner, scannerFindContrib, scannerErrContrib,
        scannerResContrib, hs]
    | ok sr =>
      simp [mergeScanner, scannerFindContrib, scannerErrContrib,
        scannerResContrib, hs, add_assoc]

lemma foldl_mergeRegion :
    ∀ (runs : List RegionRun) (acc : ScanResult),
      runs.foldl mergeRegion acc =
        { findings := acc.findings ++ (runs.map regionFindContrib).flatten
          errors := acc.errors ++ (runs.map regionErrContrib).flatten
          resourcesScanned := acc.resourcesScanned + (runs.map regionResContrib).sum
          regionsScanned := acc.regionsScanned } := by
  intro runs
  induction runs with
  | nil => intro acc; simp
  | cons r rest ih =>
    intro acc
    rw [List.foldl_cons, ih]
    cases hr : r.outcome with
    | error e =>
      simp [mergeRegion, regionFindContrib, regionErrContrib,
        regionResContrib, hr]
    | ok res =>
      simp [mergeRegion, regionFindContrib, regionErrContrib,
        regionResContrib, hr, add_assoc]

/-- Findings carried by a list of successful units. -/
def okFindings (ps : List (String × ScanResult)) : List Finding :=
  (ps.map (fun p => p.2.findings)).flatten

/-- Error strings carried by a list of successful units. -/
def okErrors (ps : List (String × ScanResult)) : List String :=
  (ps.map (fun p => p.2.errors)).flatten

/-- Resource counts carried by a list of successful units. -/
def okResources (ps : List (String × ScanResult)) : Int :=
  (ps.map (fun p => p.2.resourcesScanned)).sum

lemma flatten_map_nil (ps : List (String × ScanResult)) :
    (ps.map (fun _ => ([] : List String))).flatten = [] := by
  induction ps <;> simp [*]

/-! ### Claim theorems: metrics batcher -/

lemma maxMetricDataQueries_int : (maxMetricDataQueries : Int) = 500 := rfl

/-- C1: for every id list of length N, a metrics fetch that ends without
error issued exactly ceil(N/500) remote GetMetricData calls, each carrying
one contiguous batch of at most 500 sub-queries (the batches concatenate
back to the input, in order), and the key set of the returned map is a
subset of the input ids; for N = 0 no call is issued and the result is the
empty map with no error. -/
theorem c1_batching (client : GoClient) (ids : List String) (stat : String)
    (m : List (String × ℚ))
    (h : (fetchMetric client ids stat).result = .ok m) :
    (fetchMetric client ids stat).calls.length = (ids.length + 499) / 500 ∧
    (fetchMetric client ids stat).calls.map
        (fun qs => qs.map (fun q => q.resourceID)) =
      batchIDs ids (maxMetricDataQueries : Int) ∧
    (batchIDs ids (maxMetricDataQueries : Int)).flatten = ids ∧
    (∀ qs ∈ (fetchMetric client ids stat).calls, qs.length ≤ 500) ∧
    (∀ kv ∈ m, kv.1 ∈ ids) ∧
    (ids = [] → fetchMetric client ids stat = ⟨[], .ok []⟩ ∧ m = []) := by
  by_cases hids : ids.length = 0
  · have hnil : ids = [] := List.eq_nil_of_length_eq_zero hids
    subst hnil
    simp only [fetchMetric, if_pos rfl] at h ⊢
    have hm : m = [] := by
      cases h
      rfl
    subst hm
    refine ⟨rfl, rfl, rfl, ?_, ?_, ?_⟩
    · intro qs hqs; simp at hqs
    · intro kv hkv; simp at hkv
    · exact fun _ => ⟨rfl, rfl⟩
  · simp only [fetchMetric, if_neg hids] at h ⊢
    have hcalls := fetchBatches_calls_ok client stat _ [] [] m h
    refine ⟨?_, ?_, batchIDs_flatten ids, ?_, ?_, ?_⟩
    · rw [hcalls]
      simp only [List.nil_append, List.length_map]
      rw [batchIDs_length]
      norm_num [maxMetricDataQueries]
    · rw [hcalls]
      simp only [List.nil_append, List.map_map]
      have : (fun qs => List.map (fun q => q.resourceID) qs) ∘ mkQueries =
          fun b => (mkQueries b).map (fun q => q.resourceID) := rfl
      rw [this]
      calc (batchIDs ids (maxMetricDataQueries : Int)).map
              (fun b => (mkQueries b).map (fun q => q.resourceID))
          = (batchIDs ids (maxMetricDataQueries : Int)).map id := by
            apply List.map_congr_left
            intro b _
            rw [mkQueries_resourceIDs]
            rfl
        _ = batchIDs ids (maxMetricDataQueries : Int) := List.map_id _
    · intro qs hqs
      rw [hcalls] at hqs
      simp only [List.nil_append, List.mem_map] at hqs
      obtain ⟨b, hb, hq⟩ := hqs
      subst hq
      rw [mkQueries_length]
      exact batchIDs_mem_length ids b hb
    · intro kv hkv
      have := fetchBatches_keys client stat _ [] [] m h kv.1
        (List.mem_map_of_mem Prod.fst hkv)
      rcases this with hk | hk
      · simp at hk
      · rwa [batchIDs_flatten] at hk
    · intro hnil
      exact absurd (by simp [hnil] : ids.length = 0) hids

/-- A remote client that always answers with an empty result list. -/
def clientOkEmpty : GoClient := fun _ => .ok []

theorem c1_batching_witness :
    (fetchMetric clientOkEmpty ["i-1"] "Average").calls.length =
      ((["i-1"] : List String).length + 499) / 500 :=
  (c1_batching clientOkEmpty ["i-1"] "Average" [] rfl).1

/-- A remote client answering with the samples 10, 20, 30 for sub-query
"m0". -/
def clientThreeSamples : GoClient := fun _ => .ok [⟨some "m0", [10, 20, 30]⟩]

/-- C2: within a batch, a sub-query result carrying a non-empty sample
list maps its resource (the batch entry at the parsed index) to the
arithmetic mean of the samples under the Average statistic and to the
arithmetic sum under the Sum statistic; a result with zero samples adds
nothing to the map (the resource stays absent, never mapped to 0).  In
particular samples [10, 20, 30] aggregate to 20 under Average and to 60
under Sum. -/
theorem c2_aggregation (stat : String) (batch : List String) (sid : String)
    (idx : Int) (vs : List ℚ) (hparse : sscanfMd sid = some idx)
    (h0 : 0 ≤ idx) (hlt : idx.toNat < batch.length) :
    (vs ≠ [] →
      processOneResult "Average" batch ⟨some sid, vs⟩ [] =
        .ok [(batch.get ⟨idx.toNat, hlt⟩, vs.sum / (vs.length : ℚ))] ∧
      processOneResult "Sum" batch ⟨some sid, vs⟩ [] =
        .ok [(batch.get ⟨idx.toNat, hlt⟩, vs.sum)]) ∧
    (vs = [] → processOneResult stat batch ⟨some sid, vs⟩ [] = .ok []) ∧
    aggregate "Average" [10, 20, 30] = 20 ∧
    aggregate "Sum" [10, 20, 30] = 60 ∧
    (FetchAverage clientThreeSamples ["i-1"]).result = .ok [("i-1", 20)] ∧
    (FetchSum clientThreeSamples ["i-1"]).result = .ok [("i-1", 60)] := by
  have hnotle : ¬ ((batch.length : Int) ≤ idx) := by omega
  have hstep : ∀ st, fetchMetric clientThreeSamples ["i-1"] st =
      ⟨[[⟨"m0", "i-1"⟩]], .ok [("i-1", aggregate st [10, 20, 30])]⟩ :=
    fun st => rfl
  refine ⟨?_, ?_, ?_, ?_, ?_, ?_⟩
  · intro hne
    have hempty : vs.isEmpty = false := by
      cases vs with
      | nil => exact absurd rfl hne
      | cons v vrest => rfl
    constructor
    · simp only [processOneResult, hparse, if_neg hnotle, hempty,
        Bool.false_eq_true, if_false, dif_pos (And.intro h0 hlt)]
      rw [aggregate_average vs hne]
      simp [mapInsert]
    · simp only [processOneResult, hparse, if_neg hnotle, hempty,
        Bool.false_eq_true, if_false, dif_pos (And.intro h0 hlt)]
      rw [aggregate_sum_stat vs]
      simp [mapInsert]
  · intro hnil
    subst hnil
    simp [processOneResult, hparse, if_neg hnotle]
  · rw [aggregate_average _ (by simp)]
    norm_num
  · rw [aggregate_sum_stat]
    norm_num
  · rw [FetchAverage, hstep "Average"]
    simp only [Except.ok.injEq, List.cons.injEq, Prod.mk.injEq, and_true,
      true_and]
    rw [aggregate_average _ (by simp)]
    norm_num
  · rw [FetchSum, hstep "Sum"]
    simp only [Except.ok.injEq, List.cons.injEq, Prod.mk.injEq, and_true,
      true_and]
    rw [aggregate_sum_stat]
    norm_num

theorem c2_aggregation_witness :
    processOneResult "Average" ["i-1"] ⟨some "m0", [10, 20, 30]⟩ [] =
        .ok [((["i-1"] : List String).get ⟨(0 : Int).toNat, by decide⟩,
          ([10, 20, 30] : List ℚ).sum / (([10, 20, 30] : List ℚ).length : ℚ))] ∧
      processOneResult "Sum" ["i-1"] ⟨some "m0", [10, 20, 30]⟩ [] =
        .ok [((["i-1"] : List String).get ⟨(0 : Int).toNat, by decide⟩,
          ([10, 20, 30] : List ℚ).sum)] :=
  (c2_aggregation "Sum" ["i-1"] "m0" 0 [10, 20, 30] rfl (by decide)
    (by decide)).1 (by simp)

/-- C3: if the remote call for any issued batch fails, the whole metrics
fetch ends in an error — the `result` is the error alone, so no mapping
(in particular none of the values computed from earlier successful
batches) is returned. -/
theorem c3_batch_error_aborts (client : GoClient) (ids : List String)
    (stat : String) (qs : List MetricDataQuery) (e : String)
    (hmem : qs ∈ (fetchMetric client ids stat).calls)
    (herr : client qs = .error e) :
    ∃ e2, (fetchMetric client ids stat).result = .error e2 := by
  cases hres : (fetchMetric client ids stat).result with
  | error e2 => exact ⟨e2, rfl⟩
  | ok m =>
    exfalso
    by_cases hids : ids.length = 0
    · have hnil : ids = [] := List.eq_nil_of_length_eq_zero hids
      subst hnil
      simp only [fetchMetric, if_pos rfl] at hmem
      simp at hmem
    · simp only [fetchMetric, if_neg hids] at hmem hres
      rcases fetchBatches_client_ok client stat _ [] [] m hres qs hmem
        with hq | ⟨rs, hq⟩
      · simp at hq
      · rw [herr] at hq
        exact Except.noConfusion hq

/-- A remote client whose every call fails. -/
def clientFail : GoClient := fun _ => .error "throttled"

theorem c3_batch_error_aborts_witness :
    ∃ e2, (fetchMetric clientFail ["i-1"] "Sum").result = .error e2 :=
  c3_batch_error_aborts clientFail ["i-1"] "Sum" (mkQueries ["i-1"])
    "throttled" (by decide) rfl

/-- A remote client that echoes the sub-query id "m-1", which
`fmt.Sscanf` parses to the negative index -1. -/
def clientNegativeId : GoClient := fun _ => .ok [⟨some "m-1", [1]⟩]

/-- C8: the claim that any returned id whose parsed index lies outside the
batch range — including a negative index — is ignored without an
out-of-range access fails on the code: the guard only checks
`idx >= len(batch)`, so the id "m-1" parses to -1, passes the guard, and
`batch[idx]` panics.  A non-negative out-of-range index is indeed
ignored. -/
theorem c8_negative_index_panics :
    sscanfMd "m-1" = some (-1) ∧
    (fetchMetric clientNegativeId ["vol-1"] "Sum").result = .error .panic ∧
    sscanfMd "m7" = some 7 ∧
    processOneResult "Sum" ["vol-1"] ⟨some "m7", [1]⟩ [] = .ok [] := by
  refine ⟨by decide, rfl, by decide, rfl⟩

/-! ### Claim theorems: orchestrators -/

lemma map_scannerFindContrib_mkOk (ps : List (String × ScanResult)) :
    ps.map (scannerFindContrib ∘ mkOkScanner) = ps.map (fun p => p.2.findings) :=
  List.map_congr_left (fun _ _ => rfl)

lemma map_scannerErrContrib_mkOk (region : String) (ps : List (String × ScanResult)) :
    ps.map (scannerErrContrib region ∘ mkOkScanner) =
      ps.map (fun _ => ([] : List String)) :=
  List.map_congr_left (fun _ _ => rfl)

lemma map_scannerResContrib_mkOk (ps : List (String × ScanResult)) :
    ps.map (scannerResContrib ∘ mkOkScanner) =
      ps.map (fun p => p.2.resourcesScanned) :=
  List.map_congr_left (fun _ _ => rfl)

lemma map_regionFindContrib_mkOk (ps : List (String × ScanResult)) :
    ps.map (regionFindContrib ∘ mkOkRegion) = ps.map (fun p => p.2.findings) :=
  List.map_congr_left (fun _ _ => rfl)

lemma map_regionErrContrib_mkOk (ps : List (String × ScanResult)) :
    ps.map (regionErrContrib ∘ mkOkRegion) = ps.map (fun p => p.2.errors) :=
  List.map_congr_left (fun _ _ => rfl)

lemma map_regionResContrib_mkOk (ps : List (String × ScanResult)) :
    ps.map (regionResContrib ∘ mkOkRegion) =
      ps.map (fun p => p.2.resourcesScanned) :=
  List.map_congr_left (fun _ _ => rfl)

/-- C4: when one scanner among N fails and the other N-1 return results,
`scanRegion` records exactly the one entry "<region>/<type>: <cause>" in
the Errors of the region result, returns no error of its own for that
reason,
and the Findings and ResourcesScanned contributed by the other scanners
are exactly theirs — the failing scanner contributes zero findings and
zero resources. -/
theorem c4_scanner_failure (region t e : String)
    (pre post : List (String × ScanResult)) :
    scanRegionGo region
        (pre.map mkOkScanner ++
          { type := t, outcome := .error e } :: post.map mkOkScanner) none =
      (some { findings := okFindings pre ++ okFindings post
              errors := [region ++ "/" ++ t ++ ": " ++ e]
              resourcesScanned := okResources pre + okResources post
              regionsScanned := 0 }, none) := by
  unfold scanRegionGo scanRegion
  rw [foldl_mergeScanner]
  simp [okFindings, okErrors, okResources, List.map_map, scannerErrContrib,
    scannerFindContrib, scannerResContrib,
    map_scannerFindContrib_mkOk, map_scannerErrContrib_mkOk,
    map_scannerResContrib_mkOk, flatten_map_nil]

/-- C5: when one region among R fails and the others return results,
`ScanAll` appends exactly the one entry "<region>: <cause>" for it to the
top-level Errors, the failed region contributes zero findings and zero
resources while the contributions of the sibling regions are untouched,
and
RegionsScanned is the number of regions attempted — the failed one
included. -/
theorem c5_region_failure (rg e : String)
    (pre post : List (String × ScanResult)) :
    ScanAll
        (pre.map mkOkRegion ++
          { region := rg, outcome := .error e } :: post.map mkOkRegion) none =
      (some { findings := okFindings pre ++ okFindings post
              errors := okErrors pre ++ ([rg ++ ": " ++ e] ++ okErrors post)
              resourcesScanned := okResources pre + okResources post
              regionsScanned := ((pre.length + (1 + post.length) : Nat) : Int) },
        none) := by
  unfold ScanAll
  rw [foldl_mergeRegion]
  simp [okFindings, okErrors, okResources, List.map_map, regionErrContrib,
    regionFindContrib, regionResContrib,
    map_regionFindContrib_mkOk, map_regionErrContrib_mkOk,
    map_regionResContrib_mkOk, add_comm]

/-- C6 counterexample: with one region already merged successfully, a
failure of the pool machinery makes `ScanAll` return a nil result — the
claim that the partial merged result is returned together with the error
is false. -/
theorem c6_counterexample :
    (ScanAll
        [{ region := "us-east-1",
           outcome := .ok { findings := [], errors := [],
                            resourcesScanned := 5, regionsScanned := 0 } }]
        (some "context canceled")).1 = none := rfl

/-- C6 amended: when the concurrency-pool machinery fails, `ScanAll`
returns the error together with a nil result — the partial result merged
before the failure is discarded, not returned. -/
theorem c6_wait_error_discards_partial (runs : List RegionRun) (e : String) :
    ScanAll runs (some e) = (none, some e) := rfl

/-- C7 counterexample: a successful scanner whose result carries an error
string does not get that string merged into the region accumulator —
`scanRegion` drops the Errors component of the result of a successful
scanner. -/
theorem c7_counterexample :
    "api throttled" ∉
      (scanRegion "us-east-1"
        [{ type := "ec2",
           outcome := .ok { findings := [], errors := ["api throttled"],
                            resourcesScanned := 1, regionsScanned := 0 } }]).errors := by
  decide

/-- C7 amended: `scanRegion` merges the Findings and ResourcesScanned of
each successful scanner into the region accumulator; the Errors list of
the result of a successful scanner is dropped — the accumulator Errors
hold exactly the entries of the failing scanners; and the merged
ResourcesScanned never decreases as a contribution with a nonnegative
count is appended. -/
theorem c7_merge_discipline (region : String) (runs : List ScannerRun) :
    (scanRegion region runs).findings = (runs.map scannerFindContrib).flatten ∧
    (scanRegion region runs).errors =
      (runs.map (scannerErrContrib region)).flatten ∧
    (scanRegion region runs).resourcesScanned =
      (runs.map scannerResContrib).sum ∧
    (∀ (acc : ScanResult) (s : ScannerRun), 0 ≤ scannerResContrib s →
      acc.resourcesScanned ≤ (mergeScanner region acc s).resourcesScanned) := by
  refine ⟨?_, ?_, ?_, ?_⟩
  · unfold scanRegion
    rw [foldl_mergeScanner]
    simp
  · unfold scanRegion
    rw [foldl_mergeScanner]
    simp
  · unfold scanRegion
    rw [foldl_mergeScanner]
    simp
  · intro acc s hnn
    cases hs : s.outcome with
    | error e2 => simp [mergeScanner, hs]
    | ok sr =>
      have hres : scannerResContrib s = sr.resourcesScanned := by
        simp [scannerResContrib, hs]
      rw [hres] at hnn
      simp only [mergeScanner, hs]
      omega

theorem c7_merge_discipline_witness :
    (({ } : ScanResult)).resourcesScanned ≤
      (mergeScanner "us-east-1" { }
        { type := "ec2",
          outcome := .ok { findings := [], errors := [],
                           resourcesScanned := 2, regionsScanned := 0 } }).resourcesScanned :=
  (c7_merge_discipline "us-east-1" []).2.2.2 { } _ (by decide)

/-- C10: constructing the multi-region scanner with a non-positive
concurrency cap silently falls back to the default cap 4, with no error
possible (the constructor is total); a positive cap is kept as given. -/
theorem c10_concurrency_default (regions : List String) (c : Int) :
    (c ≤ 0 → NewMultiRegionScanner regions c =
      { regions := regions, concurrency := 4 }) ∧
    (0 < c → NewMultiRegionScanner regions c =
      { regions := regions, concurrency := c }) := by
  constructor
  · intro h
    simp [NewMultiRegionScanner, h]
  · intro h
    simp [NewMultiRegionScanner, not_le.mpr h]

theorem c10_concurrency_default_witness :
    NewMultiRegionScanner ["us-east-1"] 0 =
        { regions := ["us-east-1"], concurrency := 4 } ∧
      NewMultiRegionScanner ["us-east-1"] (-2) =
        { regions := ["us-east-1"], concurrency := 4 } ∧
      NewMultiRegionScanner ["us-east-1"] 7 =
        { regions := ["us-east-1"], concurrency := 7 } :=
  ⟨(c10_concurrency_default ["us-east-1"] 0).1 (by decide),
   (c10_concurrency_default ["us-east-1"] (-2)).1 (by decide),
   (c10_concurrency_default ["us-east-1"] 7).2 (by decide)⟩

/-! ### Claim theorem: exclusion rules -/

lemma tagMatches_eq_true_iff (ts : List (String × String))
    (kv : String × String) :
    tagMatches ts kv = true ↔
      ∃ tv, goLookup ts kv.1 = some tv ∧ (kv.2 = "" ∨ tv = kv.2) := by
  unfold tagMatches
  cases hkv : goLookup ts kv.1 with
  | none => simp
  | some tv => simp [hkv]

/-- C9: ShouldExclude returns true exactly when the resource id is in the
ResourceIDs set, or the tag set is known (non-nil) and some exclusion
predicate matches it — a predicate with an empty value matching any value
of its key, a predicate with a non-empty value matching only that exact
value; with a nil tag set only the identifier set is consulted. -/
theorem c9_should_exclude (e : ExcludeConfig) (rid : String)
    (tags : Option (List (String × String))) :
    (ShouldExclude e rid tags = true ↔
      goLookupBool e.resourceIDs rid = true ∨
        ∃ ts, tags = some ts ∧ ∃ kv ∈ e.tags, ∃ tv,
          goLookup ts kv.1 = some tv ∧ (kv.2 = "" ∨ tv = kv.2)) ∧
    (tags = none →
      ShouldExclude e rid tags = goLookupBool e.resourceIDs rid) := by
  constructor
  · by_cases hb : goLookupBool e.resourceIDs rid
    · simp [ShouldExclude, hb]
    · cases tags with
      | none => simp [ShouldExclude, hb]
      | some ts =>
        by_cases hlen : e.tags.length = 0
        · have hemp : e.tags = [] := List.eq_nil_of_length_eq_zero hlen
          simp [ShouldExclude, hb, hemp]
        · simp [ShouldExclude, hb, hlen, List.any_eq_true,
            tagMatches_eq_true_iff]
  · intro h
    subst h
    by_cases hb : goLookupBool e.resourceIDs rid <;>
      simp [ShouldExclude, hb]

theorem c9_should_exclude_witness :
    ShouldExclude
        { resourceIDs := [("i-1", true)], tags := [("env", "dev")] }
        "i-2" none =
      goLookupBool [("i-1", true)] "i-2" :=
  (c9_should_exclude
    { resourceIDs := [("i-1", true)], tags := [("env", "dev")] }
    "i-2" none).2 rfl
